import Mathlib

/-!
# Verification of the checker / preset-env core

A shallow embedding of the two subsystems of the repository:

* the TypeScript expression type analyzer
  (`src/typescript/checker/src/analyzer/expr.rs`), and
* the preset-env pass composer and polyfill injector
  (`src/ecmascript/preset_env/src/lib.rs`).

Conventions of the embedding:

* Source spans are modelled as natural numbers (`Span`).  Number literal
  values (Rust `f64`) are modelled as `Int`; the only operation the source
  performs on them is comparison with `0.0`.
* Rust `Result<_, Error>` is modelled by `Res`, which has a third
  constructor `Res.panic` covering the source's `unreachable!` and
  `unimplemented!` macros (which abort the computation rather than
  returning an error), and the source's matches on the analyzer `Type`
  enum that cover only the `Type::Simple` variant.
* Helper code of the repository that is not under `src/`
  (`eq_ignore_span`, `generalize_lit`, `scope`/`builtin` lookups,
  `transform_data::Feature::should_enable`, `pass::Optional`,
  `prepend_stmts`, `corejs2::UsageVisitor`) is modelled from the spec;
  each such definition carries a doc comment saying so.
* `extract` can genuinely diverge in the source (the spec notes the
  missing cycle guard in type-reference resolution), so its embedding
  carries a fuel argument; exhausted fuel surfaces as a distinguished
  `Res.panic "recursion limit reached"`.
-/

namespace Spec2Proof

/-- A source position, opaque to the checker. -/
abbrev Span := Nat

/-- `swc_ecma_ast::Ident`: symbol with a span and the `optional` flag. -/
structure Ident where
  span : Span
  sym : String
  optional : Bool
deriving DecidableEq, Repr

/-- The keyword kinds of `TsKeywordType` used by the analyzer. -/
inductive TsKeywordKind where
  | any | undefinedKw | nullKw | void | number | string | boolean | never
deriving DecidableEq, Repr

/-- `TsLit`: boolean, number and string literal payloads (each carries its
own span, as in `swc_ecma_ast`). -/
inductive TsLit where
  | bool (value : Bool) (span : Span)
  | num (value : Int) (span : Span)
  | str (value : String) (span : Span)
deriving DecidableEq, Repr

/-- `TsEntityName`: a possibly qualified name. -/
inductive TsEntityName where
  | ident (i : Ident)
  | qualified (left : TsEntityName) (right : Ident)
deriving DecidableEq, Repr

/-- `TsFnParam`: the analyzer only distinguishes identifier parameters
(whose `optional` flag feeds arity checking) from the other patterns. -/
inductive TsFnParam where
  | ident (i : Ident)
  | otherPat (span : Span)
deriving DecidableEq, Repr

mutual
/-- The `TsType` fragment of `swc_ecma_ast` exercised by the analyzer.
Return-type and member annotations keep the `TsTypeAnn` wrapper span as the
first component of a pair. -/
inductive TsTy where
  | keyword (span : Span) (kind : TsKeywordKind)
  | thisTy (span : Span)
  | litType (span : Span) (lit : TsLit)
  | typeLit (span : Span) (members : List TsTypeElement)
  | typeRef (span : Span) (typeName : TsEntityName) (typeParams : Option (List TsTy))
  | fnTy (span : Span) (params : List TsFnParam) (typeParams : Option (List Ident))
      (retAnn : Span × TsTy)
  | constructorTy (span : Span) (params : List TsFnParam) (typeParams : Option (List Ident))
      (retAnn : Span × TsTy)
  | tsUnion (span : Span) (types : List TsTy)
  | typeQuery (span : Span) (exprName : TsEntityName)

/-- The `TsTypeElement` members of a `TsTypeLit`.  Keys are restricted to
identifiers (the only key shape the embedded claims exercise). -/
inductive TsTypeElement where
  | callSig (span : Span) (params : List TsFnParam) (typeParams : Option (List Ident))
      (typeAnn : Option (Span × TsTy))
  | constructSig (span : Span) (params : List TsFnParam) (typeParams : Option (List Ident))
      (typeAnn : Option (Span × TsTy))
  | methodSig (span : Span) (key : Ident) (params : List TsFnParam)
      (typeAnn : Option (Span × TsTy))
  | propertySig (span : Span) (key : Ident) (optional : Bool) (readonly : Bool)
      (typeAnn : Option (Span × TsTy))
end

/-- The analyzer's `ty::Type`: either a borrowed/owned `TsType`, or one of
the freshly constructed `Array`, `Union` and `Enum` variants. -/
inductive Ty where
  | simple (t : TsTy)
  | array (span : Span) (elem : Ty)
  | union (span : Span) (types : List Ty)
  | enumRef (span : Span) (name : String)

/-- Modelled from the spec: `eq_ignore_span` on identifiers compares the
symbol and the `optional` flag, disregarding the span. -/
def Ident.eqIgnoreSpan (a b : Ident) : Bool :=
  a.sym == b.sym && a.optional == b.optional

/-- Modelled from the spec: span-insensitive equality of entity names. -/
def TsEntityName.eqIgnoreSpan : TsEntityName → TsEntityName → Bool
  | .ident a, .ident b => a.eqIgnoreSpan b
  | .qualified la ra, .qualified lb rb => TsEntityName.eqIgnoreSpan la lb && ra.eqIgnoreSpan rb
  | _, _ => false

/-- Modelled from the spec: span-insensitive equality of literal payloads. -/
def TsLit.eqIgnoreSpan : TsLit → TsLit → Bool
  | .bool a _, .bool b _ => a == b
  | .num a _, .num b _ => a == b
  | .str a _, .str b _ => a == b
  | _, _ => false

/-- Modelled from the spec: span-insensitive equality of parameters. -/
def TsFnParam.eqIgnoreSpan : TsFnParam → TsFnParam → Bool
  | .ident a, .ident b => a.eqIgnoreSpan b
  | .otherPat _, .otherPat _ => true
  | _, _ => false

def eqIgnoreSpanParams : List TsFnParam → List TsFnParam → Bool
  | [], [] => true
  | a :: as', b :: bs => a.eqIgnoreSpan b && eqIgnoreSpanParams as' bs
  | _, _ => false

def eqIgnoreSpanIds : List Ident → List Ident → Bool
  | [], [] => true
  | a :: as', b :: bs => a.eqIgnoreSpan b && eqIgnoreSpanIds as' bs
  | _, _ => false

def eqIgnoreSpanOptIds : Option (List Ident) → Option (List Ident) → Bool
  | none, none => true
  | some a, some b => eqIgnoreSpanIds a b
  | _, _ => false

mutual
/-- Modelled from the spec: `eq_ignore_span` — structural equality over
types that disregards source-position fields (`util::EqIgnoreSpan`, not
under `src/`). -/
def TsTy.eqIgnoreSpan : TsTy → TsTy → Bool
  | .keyword _ ka, .keyword _ kb => ka == kb
  | .thisTy _, .thisTy _ => true
  | .litType _ la, .litType _ lb => la.eqIgnoreSpan lb
  | .typeLit _ ma, .typeLit _ mb => eqIgnoreSpanElems ma mb
  | .typeRef _ na tpa, .typeRef _ nb tpb =>
      na.eqIgnoreSpan nb && eqIgnoreSpanOptTys tpa tpb
  | .fnTy _ pa tpa (_, ra), .fnTy _ pb tpb (_, rb) =>
      eqIgnoreSpanParams pa pb && eqIgnoreSpanOptIds tpa tpb && TsTy.eqIgnoreSpan ra rb
  | .constructorTy _ pa tpa (_, ra), .constructorTy _ pb tpb (_, rb) =>
      eqIgnoreSpanParams pa pb && eqIgnoreSpanOptIds tpa tpb && TsTy.eqIgnoreSpan ra rb
  | .tsUnion _ ta, .tsUnion _ tb => eqIgnoreSpanTys ta tb
  | .typeQuery _ na, .typeQuery _ nb => na.eqIgnoreSpan nb
  | _, _ => false

def TsTypeElement.eqIgnoreSpan : TsTypeElement → TsTypeElement → Bool
  | .callSig _ pa tpa aa, .callSig _ pb tpb ab =>
      eqIgnoreSpanParams pa pb && eqIgnoreSpanOptIds tpa tpb && eqIgnoreSpanOptAnn aa ab
  | .constructSig _ pa tpa aa, .constructSig _ pb tpb ab =>
      eqIgnoreSpanParams pa pb && eqIgnoreSpanOptIds tpa tpb && eqIgnoreSpanOptAnn aa ab
  | .methodSig _ ka pa aa, .methodSig _ kb pb ab =>
      ka.eqIgnoreSpan kb && eqIgnoreSpanParams pa pb && eqIgnoreSpanOptAnn aa ab
  | .propertySig _ ka oa ra aa, .propertySig _ kb ob rb ab =>
      ka.eqIgnoreSpan kb && oa == ob && ra == rb && eqIgnoreSpanOptAnn aa ab
  | _, _ => false

def eqIgnoreSpanTys : List TsTy → List TsTy → Bool
  | [], [] => true
  | a :: as', b :: bs => TsTy.eqIgnoreSpan a b && eqIgnoreSpanTys as' bs
  | _, _ => false

def eqIgnoreSpanElems : List TsTypeElement → List TsTypeElement → Bool
  | [], [] => true
  | a :: as', b :: bs => TsTypeElement.eqIgnoreSpan a b && eqIgnoreSpanElems as' bs
  | _, _ => false

def eqIgnoreSpanOptTys : Option (List TsTy) → Option (List TsTy) → Bool
  | none, none => true
  | some a, some b => eqIgnoreSpanTys a b
  | _, _ => false

def eqIgnoreSpanOptAnn : Option (Span × TsTy) → Option (Span × TsTy) → Bool
  | none, none => true
  | some (_, a), some (_, b) => TsTy.eqIgnoreSpan a b
  | _, _ => false
end

mutual
/-- Modelled from the spec: `eq_ignore_span` lifted to the analyzer's
`Type`. -/
def Ty.eqIgnoreSpan : Ty → Ty → Bool
  | .simple a, .simple b => a.eqIgnoreSpan b
  | .array _ ea, .array _ eb => Ty.eqIgnoreSpan ea eb
  | .union _ ta, .union _ tb => eqIgnoreSpanTyList ta tb
  | .enumRef _ na, .enumRef _ nb => na == nb
  | _, _ => false

def eqIgnoreSpanTyList : List Ty → List Ty → Bool
  | [], [] => true
  | a :: as', b :: bs => Ty.eqIgnoreSpan a b && eqIgnoreSpanTyList as' bs
  | _, _ => false
end

/-! Span accessors (`Spanned::span` in swc). -/

def TsTy.span : TsTy → Span
  | .keyword s _ | .thisTy s | .litType s _ | .typeLit s _ | .typeRef s _ _
  | .fnTy s _ _ _ | .constructorTy s _ _ _ | .tsUnion s _ | .typeQuery s _ => s

def Ty.span : Ty → Span
  | .simple t => t.span
  | .array s _ | .union s _ | .enumRef s _ => s

/-- The analyzer's error taxonomy (`errors::Error`).  `wrongParams` carries
the `expected` inclusive range as its two bounds. -/
inductive Err where
  | undefinedSymbol (span : Span)
  | noCallSignature (span : Span)
  | noNewSignature (span : Span)
  | wrongParams (span : Span) (callee : Span) (expectedMin expectedMax : Nat) (actual : Nat)
  | unionError (span : Span) (errors : List Err)
  | unimplemented (span : Span) (msg : String)

/-- Outcome of an analyzer computation: Rust `Result<_, Error>` extended
with a `panic` constructor for `unimplemented!` / `unreachable!` and for
the source's partial matches on the analyzer `Type` enum. -/
inductive Res (α : Type) where
  | ok (a : α)
  | err (e : Err)
  | panic (msg : String)

/-- Sequencing of analyzer computations (Rust `?`). -/
def Res.bind {α β : Type} : Res α → (α → Res β) → Res β
  | .ok a, f => f a
  | .err e, _ => .err e
  | .panic msg, _ => .panic msg

/-- Literal expressions (`Lit`). -/
inductive Lit where
  | bool (value : Bool) (span : Span)
  | str (value : String) (span : Span)
  | num (value : Int) (span : Span)
  | null (span : Span)
  | regex (span : Span)
deriving Repr

/-- The expression fragment of `swc_ecma_ast::Expr` embedded here.  Call
and array arguments model `ExprOrSpread` as a `Bool × Expr` pair whose
first component is the spread flag; array elements may be holes
(`Option`).  Expression kinds whose typing rules no claim exercises
(member access, object/class/function literals, `await`, assignments,
binary and sequence expressions, …) are left out of the embedding. -/
inductive Expr where
  | this (span : Span)
  | ident (i : Ident)
  | lit (l : Lit)
  | array (span : Span) (elems : List (Option (Bool × Expr)))
  | paren (span : Span) (e : Expr)
  | tpl (span : Span)
  | unaryNot (span : Span) (arg : Expr)
  | unaryTypeof (span : Span) (arg : Expr)
  | unaryVoid (span : Span) (arg : Expr)
  | tsAs (span : Span) (e : Expr) (ann : TsTy)
  | cond (span : Span) (test : Expr) (cons : Expr) (alt : Expr)
  | call (span : Span) (callee : Expr) (args : List (Bool × Expr))
      (typeArgs : Option (List TsTy))
  | newExpr (span : Span) (callee : Expr) (args : Option (List (Bool × Expr)))
      (typeArgs : Option (List TsTy))

def Lit.span : Lit → Span
  | .bool _ s | .str _ s | .num _ s | .null s | .regex s => s

def Expr.span : Expr → Span
  | .this s | .array s _ | .paren s _ | .tpl s | .unaryNot s _ | .unaryTypeof s _
  | .unaryVoid s _ | .tsAs s _ _ | .cond s _ _ _ | .call s _ _ _ | .newExpr s _ _ _ => s
  | .ident i => i.span
  | .lit l => l.span

/-- The borrowed analyzer context: `resolved_imports`, the scope's
variable-type and type lookups (`find_var_type` / `scope.find_type`), the
builtin-library view (`builtin_types::get` with the `libs` argument baked
into the table) and the diagnostic `path`.  The scope and builtin tables
are modelled from the spec as association lists, first hit wins. -/
structure Ctx where
  resolvedImports : List (String × Ty)
  varTypes : List (String × Ty)
  scopeTypes : List (String × Ty)
  builtinTypes : List (String × Ty)
  path : String

def lookupAssoc (l : List (String × Ty)) (k : String) : Option Ty :=
  (l.find? fun p => p.1 == k).map fun p => p.2

/-- `self.scope.find_type(sym)`. -/
def Ctx.findType (ctx : Ctx) (sym : String) : Option Ty :=
  lookupAssoc ctx.scopeTypes sym

/-- `self.find_var_type(sym)`. -/
def Ctx.findVarType (ctx : Ctx) (sym : String) : Option Ty :=
  lookupAssoc ctx.varTypes sym

/-- `undefined(span)` (source `expr.rs`). -/
def undefinedTy (span : Span) : Ty :=
  .simple (.keyword span .undefinedKw)

/-- `any(span)` (source `expr.rs`). -/
def anyTy (span : Span) : Ty :=
  .simple (.keyword span .any)

/-- The local `boolean(span)` of the source's `negate`. -/
def booleanTy (span : Span) : Ty :=
  .simple (.keyword span .boolean)

/-- Modelled from the spec: `generalize_lit` widens a literal type to its
primitive (`ty` module, not under `src/`); other types pass unchanged. -/
def Ty.generalizeLit : Ty → Ty
  | .simple (.litType s (.bool _ _)) => .simple (.keyword s .boolean)
  | .simple (.litType s (.num _ _)) => .simple (.keyword s .number)
  | .simple (.litType s (.str _ _)) => .simple (.keyword s .string)
  | t => t

/-- `negate` (source `expr.rs`, lines 1072-1112): inverts a boolean
literal type, turns number/string literal types into boolean literal
types by comparison with `0.0` / the empty string, and yields the
`boolean` keyword at the operand's span otherwise.  The source match
covers only `Type::Simple`; the remaining variants surface as `panic`. -/
def negate : Ty → Res Ty
  | .simple t =>
    match t with
    | .litType span l =>
      match l with
      | .bool v vs => .ok (.simple (.litType span (.bool (!v) vs)))
      | .num v vs => .ok (.simple (.litType span (.bool (v != 0) vs)))
      | .str v vs => .ok (.simple (.litType span (.bool (v != "") vs)))
    | _ => .ok (booleanTy t.span)
  | _ => .panic "negate: non-exhaustive match on Type"

/-- The `Expr::Ident` arm of `type_of` (source lines 20-48): the
`undefined` identifier types as the `undefined` keyword; `require` is
`unreachable!`; otherwise first hit wins across `resolved_imports`,
`find_var_type` and `builtin_types`, and a miss is `UndefinedSymbol`. -/
def typeOfIdent (ctx : Ctx) (i : Ident) : Res Ty :=
  if i.sym = "undefined" then .ok (undefinedTy i.span)
  else if i.sym = "require" then .panic "typeof require"
  else
    match lookupAssoc ctx.resolvedImports i.sym with
    | some t => .ok t
    | none =>
      match ctx.findVarType i.sym with
      | some t => .ok t
      | none =>
        match lookupAssoc ctx.builtinTypes i.sym with
        | some t => .ok t
        | none => .err (.undefinedSymbol i.span)

/-- The local `root` helper of `expand`: the root identifier of a
qualified name. -/
def rootIdent : TsEntityName → Ident
  | .ident i => i
  | .qualified left _ => rootIdent left

/-- `expand` (source lines 877-1044).  For a `TsTypeRef` it resolves the
root identifier through `resolved_imports` then `scope.find_type`; a miss
is `Unimplemented` with the name and source path, but on a hit the
function returns the ORIGINAL type unchanged (the resolved type bound to
`e` is discarded by `return Ok(ty)`).  A `TsTypeQuery` over an identifier
defers to the identifier typing rule; other simple types pass through.
The match covers only `Type::Simple`. -/
def expand (ctx : Ctx) (_span : Span) (ty : Ty) : Res Ty :=
  match ty with
  | .simple sTy =>
    match sTy with
    | .typeRef rs typeName _ =>
      let root := rootIdent typeName
      match lookupAssoc ctx.resolvedImports root.sym with
      | some _ => .ok ty
      | none =>
        match ctx.findType root.sym with
        | some _ => .ok ty
        | none =>
          .err (.unimplemented rs
            ("expand_export_info(" ++ root.sym ++ ")\nFile: " ++ ctx.path))
    | .typeQuery _ (.ident i) => typeOfIdent ctx i
    | .typeQuery _ (.qualified _ _) => .panic "expand TsTypeQuery: typeof member expr"
    | _ => .ok ty
  | _ => .panic "expand: non-exhaustive match on Type"

/-- `ExtractKind` (source lines 1130-1134). -/
inductive ExtractKind where
  | call
  | new
deriving DecidableEq, Repr

/-- The `ret_err!` macro of `extract`. -/
def retErr (span : Span) : ExtractKind → Res Ty
  | .call => .err (.noCallSignature span)
  | .new => .err (.noNewSignature span)

/-- The parameter filter of `try_instantiate`: everything except an
identifier parameter marked `optional` counts towards the minimum
arity. -/
def countsTowardsMin : TsFnParam → Bool
  | .ident i => !i.optional
  | .otherPat _ => true

/-- `try_instantiate` (source lines 816-872): the minimum required arity
is the number of parameters that are not an optional identifier; an
argument count outside `min..=param_decls.len()` is `WrongParams`;
otherwise the declared return type is returned.  The type-parameter
declaration and the type arguments are accepted but never read (the
corresponding check is commented out in the source). -/
def tryInstantiate (span calleeSpan : Span) (retType : Ty) (paramDecls : List TsFnParam)
    (_tyParamsDecl : Option (List Ident)) (args : List (Bool × Expr))
    (_typeArgs : Option (List TsTy)) : Res Ty :=
  let min := (paramDecls.filter countsTowardsMin).length
  if min ≤ args.length ∧ args.length ≤ paramDecls.length then .ok retType
  else .err (.wrongParams span calleeSpan min paramDecls.length args.length)

/-- `type_ann.as_ref().map(Type::from).unwrap_or(any(span))`. -/
def annToTy (span : Span) : Option (Span × TsTy) → Ty
  | some (_, t) => .simple t
  | none => anyTy span

/-- The member loop of `extract` on a `TsTypeLit` (source lines 705-760):
try `try_instantiate` on each `CallSignatureDecl` (kind `Call`) or
`ConstructSignatureDecl` (kind `New`); the first success is returned, a
failing signature is skipped, and exhausting the members is the
`ret_err!` outcome. -/
def extractTypeLitMembers (span tySpan : Span) (kind : ExtractKind)
    (args : List (Bool × Expr)) (typeArgs : Option (List TsTy)) :
    List TsTypeElement → Res Ty
  | [] => retErr span kind
  | m :: rest =>
    match m, kind with
    | .callSig _ params tps typeAnn, .call =>
      match tryInstantiate span tySpan (annToTy span typeAnn) params tps args typeArgs with
      | .ok v => .ok v
      | .err _ => extractTypeLitMembers span tySpan kind args typeArgs rest
      | .panic msg => .panic msg
    | .constructSig _ params tps typeAnn, .new =>
      match tryInstantiate span tySpan (annToTy span typeAnn) params tps args typeArgs with
      | .ok v => .ok v
      | .err _ => extractTypeLitMembers span tySpan kind args typeArgs rest
      | .panic msg => .panic msg
    | _, _ => extractTypeLitMembers span tySpan kind args typeArgs rest

mutual
/-- `extract` (source lines 678-814).  The type is expanded first; `any`
extracts to `any`, a `TsTypeLit` delegates to the member loop, a
function/constructor type of the matching kind delegates to
`try_instantiate`, a `TsUnionType` tries each member in order, and
everything else is `NoCallSignature` / `NoNewSignature`.  The source can
recurse unboundedly through `expand` on cyclic contexts (the spec notes
the missing visited-set), hence the fuel; the outer match again covers
only `Type::Simple`. -/
def extract (fuel : Nat) (ctx : Ctx) (span : Span) (ty : Ty) (kind : ExtractKind)
    (args : List (Bool × Expr)) (typeArgs : Option (List TsTy)) : Res Ty :=
  match fuel with
  | 0 => .panic "recursion limit reached"
  | fuel + 1 =>
    match expand ctx span ty with
    | .err e => .err e
    | .panic msg => .panic msg
    | .ok ty =>
      match ty with
      | .simple sTy =>
        match sTy with
        | .keyword _ .any => .ok (anyTy span)
        | .typeLit ls members => extractTypeLitMembers span ls kind args typeArgs members
        | .fnTy fs params tps (_, r) =>
          match kind with
          | .call => tryInstantiate span fs (.simple r) params tps args typeArgs
          | .new => retErr span kind
        | .constructorTy cs params tps (_, r) =>
          match kind with
          | .new => tryInstantiate span cs (.simple r) params tps args typeArgs
          | .call => retErr span kind
        | .tsUnion _ tys => extractUnion fuel ctx span kind args typeArgs tys []
        | _ => retErr span kind
      | _ => .panic "extract: non-exhaustive match on Type"

/-- The union loop of `extract` (source lines 797-809): each member that
fails contributes its error, in order, to the aggregated `UnionError`. -/
def extractUnion (fuel : Nat) (ctx : Ctx) (span : Span) (kind : ExtractKind)
    (args : List (Bool × Expr)) (typeArgs : Option (List TsTy)) :
    List TsTy → List Err → Res Ty
  | [], errors => .err (.unionError span errors)
  | t :: rest, errors =>
    match extract fuel ctx span (.simple t) kind args typeArgs with
    | .ok v => .ok v
    | .err e => extractUnion fuel ctx span kind args typeArgs rest (errors ++ [e])
    | .panic msg => .panic msg
end

/-- The `require` arm of `extract_call_new_expr` (source lines 557-586):
the first argument is unwrapped (panicking on an empty argument list, a
spread argument or a non-string-literal argument); a hit for its value in
`resolved_imports` is `unimplemented!("dep: ...")`; otherwise, if
`require` itself resolves to an `Enum` in scope the result is a type
reference to the `require` identifier, and failing that `UndefinedSymbol`. -/
def requireCallBranch (ctx : Ctx) (i : Ident) (span : Span)
    (args : List (Bool × Expr)) : Res Ty :=
  match args with
  | [] => .panic "require: Option unwrap on empty args"
  | (spread, e) :: _ =>
    if spread then .panic "error reporting: spread element in require"
    else
      match e with
      | .lit (.str value _) =>
        match lookupAssoc ctx.resolvedImports value with
        | some _ => .panic "dep"
        | none =>
          match ctx.findType i.sym with
          | some (.enumRef _ _) => .ok (.simple (.typeRef span (.ident i) none))
          | _ => .err (.undefinedSymbol i.span)
      | _ => .panic "dynamic import: require"

/-- Matches the `Expr::Ident(ref i) if i.sym == js_word!("require")` guard. -/
def asRequireIdent : Expr → Option Ident
  | .ident i => if i.sym = "require" then some i else none
  | _ => none

/-- The `elem_type` selection of the `Expr::Array` arm (source lines
76-83): no collected type is `any`, a single type stands alone, two or
more become a `Union`. -/
def mkArrayElem (span : Span) : List Ty → Ty
  | [] => anyTy span
  | [t] => t
  | ts => .union span ts

mutual
/-- `type_of` (source lines 14-339) restricted to the embedded expression
fragment.  Every arm mirrors the corresponding source arm; `Expr::Call`
and `Expr::New` delegate to `extract_call_new_expr`. -/
def typeOf (fuel : Nat) (ctx : Ctx) : Expr → Res Ty
  | .this s => .ok (.simple (.thisTy s))
  | .ident i => typeOfIdent ctx i
  | .lit (.bool v s) => .ok (.simple (.litType s (.bool v s)))
  | .lit (.str v s) => .ok (.simple (.litType s (.str v s)))
  | .lit (.num v s) => .ok (.simple (.litType s (.num v s)))
  | .lit (.null s) => .ok (.simple (.keyword s .nullKw))
  | .lit (.regex s) =>
      .ok (.simple (.typeRef s (.ident ⟨s, "RegExp", false⟩) none))
  | .array s elems =>
    match arrayElemTypes fuel ctx s elems [] with
    | .ok types => .ok (.array s (mkArrayElem s types))
    | .err e => .err e
    | .panic msg => .panic msg
  | .paren _ e => typeOf fuel ctx e
  | .tpl s => .ok (.simple (.keyword s .string))
  | .unaryNot _ arg =>
    match typeOf fuel ctx arg with
    | .ok t => negate t
    | .err e => .err e
    | .panic msg => .panic msg
  | .unaryTypeof s _ => .ok (.simple (.keyword s .string))
  | .unaryVoid s _ => .ok (undefinedTy s)
  | .tsAs _ _ ann => .ok (.simple ann)
  | .cond s _ cons alt =>
    match typeOf fuel ctx cons with
    | .ok consTy =>
      match typeOf fuel ctx alt with
      | .ok altTy =>
        if consTy.eqIgnoreSpan altTy then .ok consTy
        else .ok (.union s [consTy, altTy])
      | .err e => .err e
      | .panic msg => .panic msg
    | .err e => .err e
    | .panic msg => .panic msg
  | .call _ callee args typeArgs => extractCallNew fuel ctx callee .call args typeArgs
  | .newExpr _ callee args typeArgs =>
      extractCallNew fuel ctx callee .new (args.getD []) typeArgs

/-- The element loop of the `Expr::Array` arm (source lines 50-74): each
non-spread element's type is widened by `generalize_lit` and pushed
unless an already-collected type is `eq_ignore_span`-equal; a hole
contributes `undefined` at the array's span; a spread element is
`unimplemented!`. -/
def arrayElemTypes (fuel : Nat) (ctx : Ctx) (span : Span) :
    List (Option (Bool × Expr)) → List Ty → Res (List Ty)
  | [], acc => .ok acc
  | some (false, e) :: rest, acc =>
    match typeOf fuel ctx e with
    | .ok ty0 =>
      let ty := ty0.generalizeLit
      if acc.all fun l => !(l.eqIgnoreSpan ty) then
        arrayElemTypes fuel ctx span rest (acc ++ [ty])
      else arrayElemTypes fuel ctx span rest acc
    | .err e' => .err e'
    | .panic msg => .panic msg
  | some (true, _) :: _, _ => .panic "type of array spread"
  | none :: rest, acc =>
    let ty := undefinedTy span
    if acc.all fun l => !(l.eqIgnoreSpan ty) then
      arrayElemTypes fuel ctx span rest (acc ++ [ty])
    else arrayElemTypes fuel ctx span rest acc

/-- `extract_call_new_expr` (source lines 547-676) restricted to the
embedded callee shapes: the `require` special case, and the fall-through
that types the callee and hands the result to `extract`.  (The
member-expression callee arm is not embedded, as the member expression
itself is outside the embedded `Expr` fragment.) -/
def extractCallNew (fuel : Nat) (ctx : Ctx) (callee : Expr) (kind : ExtractKind)
    (args : List (Bool × Expr)) (typeArgs : Option (List TsTy)) : Res Ty :=
  match asRequireIdent callee with
  | some i => requireCallBranch ctx i callee.span args
  | none =>
    match typeOf fuel ctx callee with
    | .ok ty => extract fuel ctx callee.span ty kind args typeArgs
    | .err e => .err e
    | .panic msg => .panic msg
end

/-- The statement fragment visited by `infer_return_type`'s
`Visit<ReturnStmt>` visitor: return statements, expression statements and
nested blocks. -/
inductive Stmt where
  | ret (span : Span) (arg : Option Expr)
  | exprStmt (span : Span) (e : Expr)
  | block (span : Span) (stmts : List Stmt)

/-- `BlockStmt`. -/
structure BlockStmt where
  span : Span
  stmts : List Stmt

mutual
/-- The arguments of every `ReturnStmt` in AST traversal order (the
visitor of `infer_return_type`, source lines 450-474). -/
def Stmt.returnArgs : Stmt → List (Option Expr)
  | .ret _ a => [a]
  | .exprStmt _ _ => []
  | .block _ ss => stmtsReturnArgs ss

def stmtsReturnArgs : List Stmt → List (Option Expr)
  | [] => []
  | s :: rest => s.returnArgs ++ stmtsReturnArgs rest
end

/-- The per-return results collected by `infer_return_type`'s visitor: the
argument's type, or `undefined` at the body's span for a bare `return`. -/
def returnResults (fuel : Nat) (ctx : Ctx) (body : BlockStmt) : List (Res Ty) :=
  (stmtsReturnArgs body.stmts).map fun a =>
    match a with
    | some e => typeOf fuel ctx e
    | none => .ok (undefinedTy body.span)

/-- First panic in traversal order: a panic raised while the visitor runs
aborts the whole computation, before the stored `Result`s are examined. -/
def firstPanic : List (Res Ty) → Option String
  | [] => none
  | .panic msg :: _ => some msg
  | _ :: rest => firstPanic rest

/-- The `for ty in types { let ty = ty?; ... }` loop of
`infer_return_type`: the first stored error propagates. -/
def collectOks : List (Res Ty) → Res (List Ty)
  | [] => .ok []
  | .ok t :: rest =>
    match collectOks rest with
    | .ok ts => .ok (t :: ts)
    | .err e => .err e
    | .panic msg => .panic msg
  | .err e :: _ => .err e
  | .panic msg :: _ => .panic msg

/-- `infer_return_type` (source lines 444-491): collect every return
statement's type (or `undefined` for a bare return); no returns is
`None`, a single type stands alone, two or more collected types become a
`Union` at the body's span — without any deduplication. -/
def inferReturnType (fuel : Nat) (ctx : Ctx) (body : BlockStmt) : Res (Option Ty) :=
  let rs := returnResults fuel ctx body
  match firstPanic rs with
  | some msg => .panic msg
  | none =>
    match collectOks rs with
    | .err e => .err e
    | .panic msg => .panic msg
    | .ok tys =>
      match tys with
      | [] => .ok none
      | [t] => .ok (some t)
      | _ => .ok (some (.union body.span tys))

/-! Specification-side helpers, used to state the claims about the
analyzer (each follows the spec's words; theorems relate them to the
source-translated definitions above). -/

/-- The spec's deduplication step: append a type unless an
`eq_ignore_span`-equal one was already collected. -/
def dedupInsert (acc : List Ty) (t : Ty) : List Ty :=
  if acc.all fun l => !(l.eqIgnoreSpan t) then acc ++ [t] else acc

/-- The spec's per-element array typing: each non-spread element's type
widened by `generalize_lit`, holes contributing `undefined` at the
array's span, without deduplication. -/
def widenedElemTypes (fuel : Nat) (ctx : Ctx) (span : Span) :
    List (Option (Bool × Expr)) → Res (List Ty)
  | [] => .ok []
  | some (false, e) :: rest =>
    match typeOf fuel ctx e with
    | .ok t =>
      match widenedElemTypes fuel ctx span rest with
      | .ok ts => .ok (t.generalizeLit :: ts)
      | .err e' => .err e'
      | .panic msg => .panic msg
    | .err e' => .err e'
    | .panic msg => .panic msg
  | some (true, _) :: _ => .panic "type of array spread"
  | none :: rest =>
    match widenedElemTypes fuel ctx span rest with
    | .ok ts => .ok (undefinedTy span :: ts)
    | .err e' => .err e'
    | .panic msg => .panic msg

/-- The spec's description of union extraction: return the first member
result that succeeds; if every member fails, aggregate every sub-error in
member order into a `UnionError`. -/
def unionFoldSpec (span : Span) : List (Res Ty) → List Err → Res Ty
  | [], errors => .err (.unionError span errors)
  | r :: rest, errors =>
    match r with
    | .ok v => .ok v
    | .err e => unionFoldSpec span rest (errors ++ [e])
    | .panic msg => .panic msg

/-! ## Preset-env: pass composer and polyfill injector -/

/-- A parsed semver version. -/
structure SemVer where
  major : Nat
  minor : Nat
  patch : Nat
deriving DecidableEq, Repr

/-- Strict semver ordering. -/
def SemVer.lt (a b : SemVer) : Bool :=
  Nat.blt a.major b.major ||
    (a.major == b.major &&
      (Nat.blt a.minor b.minor || (a.minor == b.minor && Nat.blt a.patch b.patch)))

/-- `BrowserData`: a fixed-keyed record over the twelve runtime
platforms (source lines 125-152). -/
structure BrowserData (α : Type) where
  chrome : α
  ie : α
  edge : α
  firefox : α
  safari : α
  node : α
  ios : α
  samsung : α
  opera : α
  android : α
  electron : α
  phantom : α
deriving DecidableEq, Repr

abbrev Versions := BrowserData (Option SemVer)

/-- The `StaticMap` iteration order over the platform fields. -/
def BrowserData.toList {α : Type} (b : BrowserData α) : List α :=
  [b.chrome, b.ie, b.edge, b.firefox, b.safari, b.node, b.ios, b.samsung,
   b.opera, b.android, b.electron, b.phantom]

/-- `Versions::is_any_target` (source lines 226-230): every entry absent. -/
def Versions.isAnyTarget (v : Versions) : Bool :=
  v.toList.all fun o => o.isNone

/-- The all-absent target set. -/
def Versions.empty : Versions :=
  ⟨none, none, none, none, none, none, none, none, none, none, none, none⟩

/-- `Mode` (source lines 215-222). -/
inductive Mode where
  | usage
  | entry
deriving DecidableEq, Repr

/-- `Config` (source lines 232-260). -/
structure Config where
  mode : Option Mode
  debug : Bool
  dynamicImport : Bool
  loose : Bool
  skip : List String
  coreJs : Nat
  versions : Versions
deriving DecidableEq, Repr

/-- The features named by `preset_env`'s `add!` invocations
(`transform_data::Feature`). -/
inductive Feature where
  | objectRestSpread
  | optionalCatchBinding
  | asyncToGenerator
  | exponentiationOperator
  | blockScopedFunctions
  | templateLiterals
  | classes
  | spreadF
  | functionName
  | arrowFunctions
  | duplicateKeys
  | stickyRegex
  | typeOfSymbolF
  | shorthandProperties
  | parametersF
  | forOfF
  | computedPropertiesF
  | destructuringF
  | blockScopingF
  | propertyLiterals
  | memberExpressionLiterals
  | reservedWords
deriving DecidableEq, Repr

/-- Modelled from the spec: `Feature::should_enable`
(`transform_data`, not under `src/`).  With no targets configured the
`default_on` flag decides; otherwise the feature is enabled iff some
targeted platform has a version below the feature's row entry, or the row
has no entry for a targeted platform. -/
def shouldEnable (row : Versions) (targets : Versions) (defaultOn : Bool) : Bool :=
  if targets.isAnyTarget then defaultOn
  else
    (targets.toList.zip row.toList).any fun p =>
      match p.1, p.2 with
      | some tv, some rv => SemVer.lt tv rv
      | some _, none => true
      | none, _ => false

/-- The concrete lowering transforms chained by `preset_env`, with the
configuration each one receives. -/
inductive Lowering where
  | objectRestSpread
  | optionalCatchBinding
  | asyncToGenerator
  | exponentiation
  | blockScopedFns
  | templateLiteral
  | classes
  | spread (loose : Bool)
  | functionName
  | arrow
  | duplicateKeys
  | stickyRegex
  | typeOfSymbol
  | shorthand
  | parameters
  | forOf (assumeArray : Bool)
  | computedProperties
  | destructuring (loose : Bool)
  | blockScoping
  | propertyLiteral
  | memberExprLit
  | reservedWord (preserveImport : Bool)
deriving DecidableEq, Repr

/-- A string literal node (`Str`). -/
structure Str where
  span : Span
  value : String
  hasEscape : Bool
deriving DecidableEq, Repr

/-- Module-level statements, enough to express the spec's scenario 6
(`new Map();`). -/
inductive ModuleStmt where
  | newStmt (span : Span) (calleeName : String)
  | otherStmt (tag : Nat)
deriving DecidableEq, Repr

/-- `ModuleItem`: an import declaration (bare when `specifiers` is empty)
or a statement. -/
inductive ModuleItem where
  | importDecl (span : Span) (specifiers : List String) (src : Str)
  | stmt (s : ModuleStmt)
deriving DecidableEq, Repr

/-- `Module`. -/
structure Module where
  span : Span
  body : List ModuleItem
deriving DecidableEq, Repr

/-- Insertion step of the sort modelling `Vec::sort`. -/
def insertSorted (s : String) : List String → List String
  | [] => [s]
  | t :: rest => if s ≤ t then s :: t :: rest else t :: insertSorted s rest

/-- `v.required.sort()`: ascending lexicographic sort. -/
def sortStrings (l : List String) : List String :=
  l.foldr insertSorted []

/-- Modelled from the spec: `prepend_stmts` (swc `util`, not under
`src/`) prepends the given items, in order, to the module body. -/
def prependStmts (body newItems : List ModuleItem) : List ModuleItem :=
  newItems ++ body

/-- `impl Fold<Module> for Polyfills` (source lines 177-207).  In `Usage`
mode the required specifiers are collected by the core-js 2 usage visitor
constructed from `config.versions` alone — abstracted here as the `usage`
argument — sorted when `cfg!(debug_assertions)` holds, and prepended as
one bare side-effect import each (span of the module, `DUMMY_SP` = 0 on
the string).  No other config field is read. -/
def Polyfills.foldModule (usage : Versions → Module → List String)
    (debugAssertions : Bool) (c : Config) (m : Module) : Module :=
  if c.mode = some Mode.usage then
    let required := usage c.versions m
    let required := if debugAssertions then sortStrings required else required
    { m with
      body := prependStmts m.body (required.map fun src =>
        ModuleItem.importDecl m.span [] ⟨0, src, false⟩) }
  else m

/-- Modelled from the spec: the core-js 2 `UsageVisitor` (module
`corejs2`, not under `src/`), restricted to the spec's scenario 6 — under
no target constraints, a module containing `new Map()` requires the
polyfill specifier `core-js/modules/es6.map`. -/
def usageVisitorSpec (versions : Versions) (m : Module) : List String :=
  if versions.isAnyTarget &&
      m.body.any (fun it =>
        match it with
        | .stmt (.newStmt _ n) => n == "Map"
        | _ => false) then
    ["core-js/modules/es6.map"]
  else []

/-- A composed rewriter: `noop`, `chain!`, `Optional::new(stage, enabled)`
and the trailing `Polyfills { c }` stage. -/
inductive Pass where
  | noop
  | chain (first second : Pass)
  | optional (stage : Lowering) (enabled : Bool)
  | polyfills (c : Config)
deriving DecidableEq, Repr

/-- Modelled from the spec: running a composed pass.  `env` interprets
each concrete lowering and `inj` the polyfill injector; `chain!` applies
the first pass then the second; `Optional` (swc `pass` module, not under
`src/`) applies its inner pass iff `enabled` and is the identity
rewriter otherwise. -/
def Pass.run (env : Lowering → Module → Module) (inj : Config → Module → Module) :
    Pass → Module → Module
  | .noop => id
  | .chain a b => fun m => Pass.run env inj b (Pass.run env inj a m)
  | .optional stage enabled => if enabled then env stage else id
  | .polyfills c => inj c

/-- Flattening of the `chain!` tree into the stage sequence. -/
def Pass.toList : Pass → List Pass
  | .chain a b => a.toList ++ b.toList
  | p => [p]

/-- `preset_env` (source lines 22-122): normalize `core_js` (0 ↦ 2), then
chain the lowering stages in the fixed source order, each wrapped in
`Optional` with its `should_enable` flag (`true` default only for the
ES2015 block), and append `Polyfills` as the final stage.  The
per-feature compatibility rows (`transform_data`, not under `src/`) are
abstracted as `row`. -/
def preset_env (row : Feature → Versions) (c0 : Config) : Pass :=
  let c := if c0.coreJs = 0 then { c0 with coreJs := 2 } else c0
  let loose := c.loose
  let en (f : Feature) (d : Bool) : Bool := shouldEnable (row f) c.versions d
  let pass := Pass.noop
  let pass := Pass.chain pass (.optional .objectRestSpread (en .objectRestSpread false))
  let pass := Pass.chain pass (.optional .optionalCatchBinding (en .optionalCatchBinding false))
  let pass := Pass.chain pass (.optional .asyncToGenerator (en .asyncToGenerator false))
  let pass := Pass.chain pass (.optional .exponentiation (en .exponentiationOperator false))
  let pass := Pass.chain pass (.optional .blockScopedFns (en .blockScopedFunctions true))
  let pass := Pass.chain pass (.optional .templateLiteral (en .templateLiterals true))
  let pass := Pass.chain pass (.optional .classes (en .classes true))
  let pass := Pass.chain pass (.optional (.spread loose) (en .spreadF true))
  let pass := Pass.chain pass (.optional .functionName (en .functionName true))
  let pass := Pass.chain pass (.optional .arrow (en .arrowFunctions true))
  let pass := Pass.chain pass (.optional .duplicateKeys (en .duplicateKeys true))
  let pass := Pass.chain pass (.optional .stickyRegex (en .stickyRegex true))
  let pass := Pass.chain pass (.optional .typeOfSymbol (en .typeOfSymbolF true))
  let pass := Pass.chain pass (.optional .shorthand (en .shorthandProperties true))
  let pass := Pass.chain pass (.optional .parameters (en .parametersF true))
  let pass := Pass.chain pass (.optional (.forOf loose) (en .forOfF true))
  let pass := Pass.chain pass (.optional .computedProperties (en .computedPropertiesF true))
  let pass := Pass.chain pass (.optional (.destructuring loose) (en .destructuringF true))
  let pass := Pass.chain pass (.optional .blockScoping (en .blockScopingF true))
  let pass := Pass.chain pass (.optional .propertyLiteral (en .propertyLiterals false))
  let pass := Pass.chain pass (.optional .memberExprLit (en .memberExpressionLiterals false))
  let pass := Pass.chain pass
    (.optional (.reservedWord c.dynamicImport) (en .reservedWords false))
  Pass.chain pass (.polyfills c)

/-! Concrete inputs used by witnesses and counterexamples. -/

/-- An empty analyzer context. -/
def ctxE : Ctx := ⟨[], [], [], [], "t.ts"⟩

/-- A context whose `resolved_imports` maps `A` to the `number` keyword. -/
def ctxImportA : Ctx := ⟨[("A", .simple (.keyword 1 .number))], [], [], [], "lib.ts"⟩

/-- A context whose `resolved_imports` maps the module specifier `foo` to
the `number` keyword. -/
def ctxImportFoo : Ctx := ⟨[("foo", .simple (.keyword 1 .number))], [], [], [], "f.ts"⟩

/-- A context whose scope resolves `require` to an enum. -/
def ctxRequireEnum : Ctx := ⟨[], [], [("require", .enumRef 9 "E")], [], "f.ts"⟩

/-! ## Theorems -/

/-! Reflexivity of span-insensitive equality. -/

theorem ident_eqIgnoreSpan_refl (a : Ident) : a.eqIgnoreSpan a = true := by
  simp [Ident.eqIgnoreSpan]

theorem entityName_eqIgnoreSpan_refl : ∀ a : TsEntityName, a.eqIgnoreSpan a = true
  | .ident i => by simp [TsEntityName.eqIgnoreSpan, ident_eqIgnoreSpan_refl]
  | .qualified l r => by
      simp [TsEntityName.eqIgnoreSpan, entityName_eqIgnoreSpan_refl l,
        ident_eqIgnoreSpan_refl]

theorem tsLit_eqIgnoreSpan_refl : ∀ a : TsLit, a.eqIgnoreSpan a = true
  | .bool _ _ | .num _ _ | .str _ _ => by simp [TsLit.eqIgnoreSpan]

theorem tsFnParam_eqIgnoreSpan_refl : ∀ a : TsFnParam, a.eqIgnoreSpan a = true
  | .ident i => by simp [TsFnParam.eqIgnoreSpan, ident_eqIgnoreSpan_refl]
  | .otherPat _ => rfl

theorem eqIgnoreSpanParams_refl : ∀ l, eqIgnoreSpanParams l l = true
  | [] => rfl
  | a :: as' => by
      simp [eqIgnoreSpanParams, tsFnParam_eqIgnoreSpan_refl, eqIgnoreSpanParams_refl as']

theorem eqIgnoreSpanIds_refl : ∀ l, eqIgnoreSpanIds l l = true
  | [] => rfl
  | a :: as' => by
      simp [eqIgnoreSpanIds, ident_eqIgnoreSpan_refl, eqIgnoreSpanIds_refl as']

theorem eqIgnoreSpanOptIds_refl : ∀ o, eqIgnoreSpanOptIds o o = true
  | none => rfl
  | some l => by simp [eqIgnoreSpanOptIds, eqIgnoreSpanIds_refl l]

mutual
theorem tsTy_eqIgnoreSpan_refl : ∀ t : TsTy, t.eqIgnoreSpan t = true
  | .keyword _ _ => by simp [TsTy.eqIgnoreSpan]
  | .thisTy _ => by simp [TsTy.eqIgnoreSpan]
  | .litType _ l => by simp [TsTy.eqIgnoreSpan, tsLit_eqIgnoreSpan_refl]
  | .typeLit _ ms => by simp [TsTy.eqIgnoreSpan, eqIgnoreSpanElems_refl ms]
  | .typeRef _ n tp => by
      simp [TsTy.eqIgnoreSpan, entityName_eqIgnoreSpan_refl, eqIgnoreSpanOptTys_refl tp]
  | .fnTy _ p tp (_, r) => by
      simp [TsTy.eqIgnoreSpan, eqIgnoreSpanParams_refl, eqIgnoreSpanOptIds_refl,
        tsTy_eqIgnoreSpan_refl r]
  | .constructorTy _ p tp (_, r) => by
      simp [TsTy.eqIgnoreSpan, eqIgnoreSpanParams_refl, eqIgnoreSpanOptIds_refl,
        tsTy_eqIgnoreSpan_refl r]
  | .tsUnion _ ts => by simp [TsTy.eqIgnoreSpan, eqIgnoreSpanTys_refl ts]
  | .typeQuery _ n => by simp [TsTy.eqIgnoreSpan, entityName_eqIgnoreSpan_refl]

theorem tsElem_eqIgnoreSpan_refl : ∀ m : TsTypeElement, m.eqIgnoreSpan m = true
  | .callSig _ p tp a => by
      simp [TsTypeElement.eqIgnoreSpan, eqIgnoreSpanParams_refl, eqIgnoreSpanOptIds_refl,
        eqIgnoreSpanOptAnn_refl a]
  | .constructSig _ p tp a => by
      simp [TsTypeElement.eqIgnoreSpan, eqIgnoreSpanParams_refl, eqIgnoreSpanOptIds_refl,
        eqIgnoreSpanOptAnn_refl a]
  | .methodSig _ k p a => by
      simp [TsTypeElement.eqIgnoreSpan, ident_eqIgnoreSpan_refl, eqIgnoreSpanParams_refl,
        eqIgnoreSpanOptAnn_refl a]
  | .propertySig _ k o r a => by
      simp [TsTypeElement.eqIgnoreSpan, ident_eqIgnoreSpan_refl, eqIgnoreSpanOptAnn_refl a]

theorem eqIgnoreSpanTys_refl : ∀ l, eqIgnoreSpanTys l l = true
  | [] => by simp [eqIgnoreSpanTys]
  | a :: as' => by
      simp [eqIgnoreSpanTys, tsTy_eqIgnoreSpan_refl a, eqIgnoreSpanTys_refl as']

theorem eqIgnoreSpanElems_refl : ∀ l, eqIgnoreSpanElems l l = true
  | [] => by simp [eqIgnoreSpanElems]
  | a :: as' => by
      simp [eqIgnoreSpanElems, tsElem_eqIgnoreSpan_refl a, eqIgnoreSpanElems_refl as']

theorem eqIgnoreSpanOptTys_refl : ∀ o, eqIgnoreSpanOptTys o o = true
  | none => by simp [eqIgnoreSpanOptTys]
  | some l => by simp [eqIgnoreSpanOptTys, eqIgnoreSpanTys_refl l]

theorem eqIgnoreSpanOptAnn_refl : ∀ o, eqIgnoreSpanOptAnn o o = true
  | none => by simp [eqIgnoreSpanOptAnn]
  | some (_, t) => by simp [eqIgnoreSpanOptAnn, tsTy_eqIgnoreSpan_refl t]
end

mutual
theorem ty_eqIgnoreSpan_refl : ∀ t : Ty, t.eqIgnoreSpan t = true
  | .simple t => by simp [Ty.eqIgnoreSpan, tsTy_eqIgnoreSpan_refl]
  | .array _ e => by simp [Ty.eqIgnoreSpan, ty_eqIgnoreSpan_refl e]
  | .union _ ts => by simp [Ty.eqIgnoreSpan, eqIgnoreSpanTyList_refl ts]
  | .enumRef _ _ => by simp [Ty.eqIgnoreSpan]

theorem eqIgnoreSpanTyList_refl : ∀ l, eqIgnoreSpanTyList l l = true
  | [] => by simp [eqIgnoreSpanTyList]
  | a :: as' => by
      simp [eqIgnoreSpanTyList, ty_eqIgnoreSpan_refl a, eqIgnoreSpanTyList_refl as']
end



/-! ### C5: arity checking in `try_instantiate` -/

/-- C5: `try_instantiate` computes the minimum required arity as the
count of parameters that are not an optional identifier, succeeds with
the signature's declared return type exactly when the argument count lies
within `min..=param_decls.len()`, fails with `WrongParams` carrying that
expected range and the actual argument count otherwise, and accepts but
ignores the type arguments and the type-parameter declaration. -/
theorem C5_try_instantiate_arity (span calleeSpan : Span) (retTy : Ty)
    (params : List TsFnParam) (tpd : Option (List Ident))
    (args : List (Bool × Expr)) (targs : Option (List TsTy)) :
    (tryInstantiate span calleeSpan retTy params tpd args targs = .ok retTy ↔
      (params.filter countsTowardsMin).length ≤ args.length ∧
        args.length ≤ params.length)
    ∧ (args.length < (params.filter countsTowardsMin).length ∨
          params.length < args.length →
        tryInstantiate span calleeSpan retTy params tpd args targs =
          .err (.wrongParams span calleeSpan
            (params.filter countsTowardsMin).length params.length args.length))
    ∧ ∀ (tpd' : Option (List Ident)) (targs' : Option (List TsTy)),
        tryInstantiate span calleeSpan retTy params tpd' args targs' =
          tryInstantiate span calleeSpan retTy params tpd args targs := by
  refine ⟨?_, ?_, fun _ _ => rfl⟩
  · by_cases hb : (params.filter countsTowardsMin).length ≤ args.length ∧
      args.length ≤ params.length
    · simp [tryInstantiate, hb]
    · simp only [tryInstantiate, if_neg hb]
      constructor
      · intro h
        exact absurd h (by simp)
      · intro h
        exact absurd h hb
  · intro h
    have hb : ¬((params.filter countsTowardsMin).length ≤ args.length ∧
        args.length ≤ params.length) := by omega
    simp [tryInstantiate, if_neg hb]

/-- C5 witness, at the spec's scenario 5 arity: a signature with one
mandatory identifier parameter applied to two arguments fails with
`WrongParams` whose expected range is `1..=1` and actual count 2. -/
theorem C5_witness :
    tryInstantiate 1 2 (anyTy 3) [.ident ⟨4, "x", false⟩] none
        [(false, .lit (.num 1 5)), (false, .lit (.num 2 6))] none =
      .err (.wrongParams 1 2 1 1 2) :=
  (C5_try_instantiate_arity 1 2 (anyTy 3) [.ident ⟨4, "x", false⟩] none
      [(false, .lit (.num 1 5)), (false, .lit (.num 2 6))] none).2.1
    (Or.inr (by decide))

/-! ### C1: `expand` on a type reference -/

/-- C1 (amended): for a type reference, `expand` resolves the root
identifier of the qualified name through `resolved_imports` and then
`scope.find_type`, and fails with `Unimplemented` carrying the name and
the source path when both lookups miss; on a hit, however, it returns the
ORIGINAL type reference unchanged — the resolved type is discarded. -/
theorem C1_expand_typeref (ctx : Ctx) (span rs : Span) (name : TsEntityName)
    (tp : Option (List TsTy)) :
    expand ctx span (.simple (.typeRef rs name tp)) =
      match lookupAssoc ctx.resolvedImports (rootIdent name).sym,
          ctx.findType (rootIdent name).sym with
      | some _, _ => .ok (.simple (.typeRef rs name tp))
      | none, some _ => .ok (.simple (.typeRef rs name tp))
      | none, none =>
        .err (.unimplemented rs
          ("expand_export_info(" ++ (rootIdent name).sym ++ ")\nFile: " ++ ctx.path)) := by
  unfold expand
  rcases h1 : lookupAssoc ctx.resolvedImports (rootIdent name).sym with _ | t1 <;>
    rcases h2 : ctx.findType (rootIdent name).sym with _ | t2 <;>
      simp [h1, h2]

/-- C1 counterexample: the context maps the import `A` to the `number`
keyword, yet expanding the type reference `A` returns the reference
itself, which differs from the resolved type. -/
theorem C1_counterexample :
    expand ctxImportA 5 (.simple (.typeRef 5 (.ident ⟨5, "A", false⟩) none)) =
      .ok (.simple (.typeRef 5 (.ident ⟨5, "A", false⟩) none)) ∧
    lookupAssoc ctxImportA.resolvedImports "A" = some (.simple (.keyword 1 .number)) ∧
    Ty.simple (.typeRef 5 (.ident ⟨5, "A", false⟩) none) ≠
      Ty.simple (.keyword 1 .number) := by
  refine ⟨rfl, rfl, ?_⟩
  simp

/-! ### C9: double negation -/

/-- C9 (amended): applying `negate` twice to a boolean literal type
returns the identical type (hence `eq_ignore_span`-equal); applying it
twice to a number literal yields the boolean LITERAL `value == 0`, and to
a string literal the boolean LITERAL `value == ""` — not the `boolean`
keyword.  `negate` itself inverts a boolean literal, maps a number
literal to the boolean literal `value != 0`, a string literal to the
boolean literal `value != ""`, and any other simple type to the `boolean`
keyword at the operand's span. -/
theorem C9_negate (os vs : Span) :
    (∀ v : Bool,
      (negate (.simple (.litType os (.bool v vs)))).bind negate =
          .ok (.simple (.litType os (.bool v vs))) ∧
        negate (.simple (.litType os (.bool v vs))) =
          .ok (.simple (.litType os (.bool (!v) vs))))
    ∧ (∀ v : Int,
      (negate (.simple (.litType os (.num v vs)))).bind negate =
          .ok (.simple (.litType os (.bool (v == 0) vs))) ∧
        negate (.simple (.litType os (.num v vs))) =
          .ok (.simple (.litType os (.bool (v != 0) vs))))
    ∧ (∀ v : String,
      (negate (.simple (.litType os (.str v vs)))).bind negate =
          .ok (.simple (.litType os (.bool (v == "") vs))) ∧
        negate (.simple (.litType os (.str v vs))) =
          .ok (.simple (.litType os (.bool (v != "") vs))))
    ∧ ∀ t : TsTy, (∀ s l, t ≠ .litType s l) →
        negate (.simple t) = .ok (booleanTy t.span) := by
  refine ⟨?_, ?_, ?_, ?_⟩
  · intro v
    constructor <;> simp [negate, Res.bind]
  · intro v
    constructor <;> simp [negate, Res.bind, bne]
  · intro v
    constructor <;> simp [negate, Res.bind, bne]
  · intro t h
    cases t with
    | litType s l => exact absurd rfl (h s l)
    | _ => simp [negate]

/-- C9 witness: a non-literal simple type (the `number` keyword) negates
to the `boolean` keyword at its span. -/
theorem C9_witness :
    negate (.simple (.keyword 3 .number)) = .ok (booleanTy 3) :=
  (C9_negate 0 0).2.2.2 (.keyword 3 .number) fun _ _ h => TsTy.noConfusion h

/-- C9 counterexample: double negation of the number literal `1` yields
the boolean literal `false`, which is not the `boolean` keyword even up
to spans. -/
theorem C9_counterexample :
    (negate (.simple (.litType 5 (.num 1 5)))).bind negate =
      .ok (.simple (.litType 5 (.bool false 5))) ∧
    Ty.eqIgnoreSpan (.simple (.litType 5 (.bool false 5))) (booleanTy 5) = false :=
  ⟨rfl, by simp [Ty.eqIgnoreSpan, TsTy.eqIgnoreSpan, booleanTy]⟩


/-! ### C3: the `require(...)` special case of call/new extraction -/

/-- C3 (amended): for a call whose callee is the identifier `require`
applied first to a non-spread string-literal argument, extraction PANICS
with the source's `unimplemented!("dep: ...")` when the literal's value
is a key of `resolved_imports` — the imported type is never returned.
Only when the value is NOT a key does the enum fallback apply: if
`require` itself resolves to an `Enum` in scope, a type reference to the
`require` identifier is returned, and otherwise the result is
`UndefinedSymbol` at the identifier's span. -/
theorem C3_require_extraction (fuel : Nat) (ctx : Ctx) (i : Ident)
    (value : String) (s : Span) (rest : List (Bool × Expr))
    (kind : ExtractKind) (targs : Option (List TsTy)) (hreq : i.sym = "require") :
    extractCallNew fuel ctx (.ident i) kind
        ((false, .lit (.str value s)) :: rest) targs =
      match lookupAssoc ctx.resolvedImports value with
      | some _ => .panic "dep"
      | none =>
        match ctx.findType i.sym with
        | some (.enumRef _ _) => .ok (.simple (.typeRef i.span (.ident i) none))
        | _ => .err (.undefinedSymbol i.span) := by
  rw [extractCallNew]
  have h1 : asRequireIdent (Expr.ident i) = some i := by simp [asRequireIdent, hreq]
  rw [h1]
  rcases h2 : lookupAssoc ctx.resolvedImports value with _ | t
  · rcases h3 : ctx.findType i.sym with _ | t3
    · simp [requireCallBranch, Expr.span, h2, h3]
    · cases t3 <;> simp [requireCallBranch, Expr.span, h2, h3]
  · simp [requireCallBranch, Expr.span, h2]

/-- C3 witness: with `foo` absent from `resolved_imports` and `require`
resolving to an enum in scope, extraction of `require("foo")` returns a
type reference to the `require` identifier. -/
theorem C3_witness :
    extractCallNew 1 ctxRequireEnum (.ident ⟨2, "require", false⟩) .call
        [(false, .lit (.str "foo" 3))] none =
      .ok (.simple (.typeRef 2 (.ident ⟨2, "require", false⟩) none)) := by
  have h := C3_require_extraction 1 ctxRequireEnum ⟨2, "require", false⟩ "foo" 3 []
    .call none rfl
  simpa [ctxRequireEnum, Ctx.findType, lookupAssoc] using h

/-- C3 counterexample: `foo` IS a key of `resolved_imports`, and the
extraction of `require("foo")` panics instead of returning the imported
type. -/
theorem C3_counterexample :
    extractCallNew 1 ctxImportFoo (.ident ⟨2, "require", false⟩) .call
        [(false, .lit (.str "foo" 3))] none = .panic "dep" ∧
    lookupAssoc ctxImportFoo.resolvedImports "foo" =
      some (.simple (.keyword 1 .number)) := by
  constructor
  · have h := C3_require_extraction 1 ctxImportFoo ⟨2, "require", false⟩ "foo" 3 []
      .call none rfl
    simpa [ctxImportFoo, lookupAssoc] using h
  · rfl

/-! ### C6: extraction over a union type -/

/-- C6: `extract` on a `TsUnionType` tries each member in order and
returns the first member result that succeeds; and whenever every member
fails (the member results are exactly a list of errors), the result is a
`UnionError` aggregating those sub-errors in member order, so its error
list has exactly as many entries as the union has members. -/
theorem C6_extract_union (fuel : Nat) (ctx : Ctx) (span us : Span)
    (tys : List TsTy) (kind : ExtractKind) (args : List (Bool × Expr))
    (targs : Option (List TsTy)) :
    extract (fuel + 1) ctx span (.simple (.tsUnion us tys)) kind args targs =
      unionFoldSpec span
        (tys.map fun t => extract fuel ctx span (.simple t) kind args targs) []
    ∧ ∀ es : List Err,
        (tys.map fun t => extract fuel ctx span (.simple t) kind args targs) =
            es.map Res.err →
        extract (fuel + 1) ctx span (.simple (.tsUnion us tys)) kind args targs =
            .err (.unionError span es) ∧
          es.length = tys.length := by
  have key : ∀ (l : List TsTy) (errs : List Err),
      extractUnion fuel ctx span kind args targs l errs =
        unionFoldSpec span
          (l.map fun t => extract fuel ctx span (.simple t) kind args targs) errs := by
    intro l
    induction l with
    | nil => intro errs; rw [extractUnion]; rfl
    | cons t rest ih =>
      intro errs
      rw [extractUnion]
      rcases hr : extract fuel ctx span (.simple t) kind args targs with v | e | msg <;>
        simp [unionFoldSpec, hr, ih]
  have head : extract (fuel + 1) ctx span (.simple (.tsUnion us tys)) kind args targs =
      extractUnion fuel ctx span kind args targs tys [] := by
    rw [extract]
    rfl
  have allErr : ∀ (rs : List (Res Ty)) (es : List Err) (errs : List Err),
      rs = es.map Res.err →
      unionFoldSpec span rs errs = .err (.unionError span (errs ++ es)) := by
    intro rs es
    induction es generalizing rs with
    | nil => intro errs h; subst h; simp [unionFoldSpec]
    | cons e rest ih =>
      intro errs h
      subst h
      simp only [List.map_cons, unionFoldSpec]
      rw [ih _ _ rfl]
      simp
  refine ⟨head.trans (key tys []), fun es hes => ⟨?_, ?_⟩⟩
  · rw [head, key tys [], allErr _ es [] hes]
    simp
  · have := congrArg List.length hes
    simpa using this.symm

/-- C6 witness: a two-member union of the `number` and `string` keywords
has no call signature in either member, so call extraction aggregates
exactly two `NoCallSignature` errors, in member order. -/
theorem C6_witness :
    extract 2 ctxE 7 (.simple (.tsUnion 1 [.keyword 2 .number, .keyword 3 .string]))
        .call [] none = .err (.unionError 7 [.noCallSignature 7, .noCallSignature 7]) ∧
    ([Err.noCallSignature 7, Err.noCallSignature 7]).length =
      ([TsTy.keyword 2 .number, TsTy.keyword 3 .string]).length := by
  refine (C6_extract_union 1 ctxE 7 1 [.keyword 2 .number, .keyword 3 .string]
    .call [] none).2 [.noCallSignature 7, .noCallSignature 7] ?_
  simp [extract, expand, retErr]


/-! ### C7: the composed pipeline of `preset_env` -/

/-- C7: for every config, `preset_env` composes exactly the fixed stage
sequence — ES2018 (ObjectRestSpread, OptionalCatchBinding), ES2017
(AsyncToGenerator), ES2016 (ExponentiationOperator), the fifteen ES2015
stages, ES3 (PropertyLiterals, MemberExpressionLiterals, ReservedWords) —
each wrapped as `Optional(stage, should_enable(...))` with the ES2015
block default-on, and appends the polyfill injector, holding the
normalized config, as the final stage; a disabled `Optional` stage runs
as the identity rewriter. -/
theorem C7_preset_env_pipeline (row : Feature → Versions) (c0 : Config) :
    (preset_env row c0).toList =
      (let c := if c0.coreJs = 0 then { c0 with coreJs := 2 } else c0
       let en (f : Feature) (d : Bool) : Bool := shouldEnable (row f) c.versions d
       [Pass.noop,
        .optional .objectRestSpread (en .objectRestSpread false),
        .optional .optionalCatchBinding (en .optionalCatchBinding false),
        .optional .asyncToGenerator (en .asyncToGenerator false),
        .optional .exponentiation (en .exponentiationOperator false),
        .optional .blockScopedFns (en .blockScopedFunctions true),
        .optional .templateLiteral (en .templateLiterals true),
        .optional .classes (en .classes true),
        .optional (.spread c.loose) (en .spreadF true),
        .optional .functionName (en .functionName true),
        .optional .arrow (en .arrowFunctions true),
        .optional .duplicateKeys (en .duplicateKeys true),
        .optional .stickyRegex (en .stickyRegex true),
        .optional .typeOfSymbol (en .typeOfSymbolF true),
        .optional .shorthand (en .shorthandProperties true),
        .optional .parameters (en .parametersF true),
        .optional (.forOf c.loose) (en .forOfF true),
        .optional .computedProperties (en .computedPropertiesF true),
        .optional (.destructuring c.loose) (en .destructuringF true),
        .optional .blockScoping (en .blockScopingF true),
        .optional .propertyLiteral (en .propertyLiterals false),
        .optional .memberExprLit (en .memberExpressionLiterals false),
        .optional (.reservedWord c.dynamicImport) (en .reservedWords false),
        .polyfills c])
    ∧ ∀ (env : Lowering → Module → Module) (inj : Config → Module → Module)
        (stage : Lowering) (m : Module),
        Pass.run env inj (.optional stage false) m = m := by
  constructor
  · simp [preset_env, Pass.toList]
  · intro env inj stage m
    simp [Pass.run]

/-! ### C8: the usage-mode polyfill injector -/

/-- C8 (amended): when `config.mode` is `Usage`, the polyfill injector
prepends one bare side-effect import per specifier collected by the
usage visitor — which the source constructs from `config.versions`
alone — sorted under debug assertions.  `config.skip` is never consulted,
so the injected import set is independent of it (the claimed filtering by
`config.skip` does not happen). -/
theorem C8_polyfills_usage (usage : Versions → Module → List String)
    (dbg : Bool) (c : Config) (m : Module) (h : c.mode = some Mode.usage) :
    Polyfills.foldModule usage dbg c m =
      { m with body :=
          ((if dbg then sortStrings (usage c.versions m) else usage c.versions m).map
            fun src => ModuleItem.importDecl m.span [] ⟨0, src, false⟩) ++ m.body }
    ∧ ∀ sk : List String,
        Polyfills.foldModule usage dbg { c with skip := sk } m =
          Polyfills.foldModule usage dbg c m := by
  constructor
  · simp [Polyfills.foldModule, h, prependStmts]
  · intro sk
    rcases c with ⟨mo, db, di, lo, sk0, cj, ver⟩
    rfl

/-- C8 witness: the spec's scenario 6 — a module containing `new Map()`
under usage mode and empty targets gets the single bare
`core-js/modules/es6.map` import prepended. -/
theorem C8_witness :
    Polyfills.foldModule usageVisitorSpec true
        ⟨some .usage, false, false, false, [], 2, Versions.empty⟩
        ⟨7, [.stmt (.newStmt 8 "Map")]⟩ =
      ⟨7, [.importDecl 7 [] ⟨0, "core-js/modules/es6.map", false⟩,
           .stmt (.newStmt 8 "Map")]⟩ := by
  have h := (C8_polyfills_usage usageVisitorSpec true
    ⟨some .usage, false, false, false, [], 2, Versions.empty⟩
    ⟨7, [.stmt (.newStmt 8 "Map")]⟩ rfl).1
  simpa [usageVisitorSpec, Versions.isAnyTarget, BrowserData.toList, Versions.empty,
    sortStrings, insertSorted] using h

/-- C8 counterexample: with the sole required specifier listed in
`config.skip`, the injector still prepends its import — the output is not
filtered by the skip list. -/
theorem C8_counterexample :
    Polyfills.foldModule usageVisitorSpec true
        ⟨some .usage, false, false, false, ["core-js/modules/es6.map"], 2,
          Versions.empty⟩
        ⟨7, [.stmt (.newStmt 8 "Map")]⟩ =
      ⟨7, [.importDecl 7 [] ⟨0, "core-js/modules/es6.map", false⟩,
           .stmt (.newStmt 8 "Map")]⟩ ∧
    "core-js/modules/es6.map" ∈
      (⟨some .usage, false, false, false, ["core-js/modules/es6.map"], 2,
        Versions.empty⟩ : Config).skip := by
  constructor
  · simp [Polyfills.foldModule, usageVisitorSpec, Versions.isAnyTarget,
      BrowserData.toList, Versions.empty, sortStrings, insertSorted, prependStmts]
  · simp

/-! ### C10: the injected import set ignores the core-js version -/

/-- C10: the polyfill injector's output is independent of the configured
core-js major version — the source always runs the core-js 2 usage
visitor constructed from `config.versions` alone, so two configs
differing only in `core_js` produce identical output on every module. -/
theorem C10_corejs_independent (usage : Versions → Module → List String)
    (dbg : Bool) (c : Config) (x : Nat) (m : Module) :
    Polyfills.foldModule usage dbg { c with coreJs := x } m =
      Polyfills.foldModule usage dbg c m := by
  rcases c with ⟨mo, db, di, lo, sk, cj, ver⟩
  rfl


/-! ### Helper lemmas about the array element fold -/

/-- The two branches of the element loop collapse to `dedupInsert`. -/
theorem arrayElemTypes_step (fuel : Nat) (ctx : Ctx) (span : Span)
    (rest : List (Option (Bool × Expr))) (ty : Ty) (acc : List Ty) :
    (if acc.all (fun l => !(l.eqIgnoreSpan ty)) then
        arrayElemTypes fuel ctx span rest (acc ++ [ty])
      else arrayElemTypes fuel ctx span rest acc) =
      arrayElemTypes fuel ctx span rest (dedupInsert acc ty) := by
  by_cases hc : (acc.all fun l => !(l.eqIgnoreSpan ty)) = true
  · simp [dedupInsert, hc]
  · simp [dedupInsert, hc]

/-- The source element loop computes the spec's fold: the per-element
widened types pushed through `dedupInsert`. -/
theorem arrayElemTypes_ok_of_widened (fuel : Nat) (ctx : Ctx) (span : Span) :
    ∀ (elems : List (Option (Bool × Expr))) (acc ws : List Ty),
      widenedElemTypes fuel ctx span elems = .ok ws →
      arrayElemTypes fuel ctx span elems acc = .ok (ws.foldl dedupInsert acc) := by
  intro elems
  induction elems with
  | nil =>
    intro acc ws hw
    simp only [widenedElemTypes] at hw
    cases hw
    simp only [arrayElemTypes, List.foldl_nil]
  | cons hd rest ih =>
    intro acc ws hw
    rcases hd with _ | ⟨(_ | _), e⟩
    · simp only [widenedElemTypes] at hw
      rcases hrest : widenedElemTypes fuel ctx span rest with ts | er | m <;>
        rw [hrest] at hw <;> cases hw
      simp only [arrayElemTypes]
      rw [arrayElemTypes_step, ih _ ts hrest, List.foldl_cons]
    · simp only [widenedElemTypes] at hw
      rcases ht : typeOf fuel ctx e with t | er | m <;> rw [ht] at hw
      · rcases hrest : widenedElemTypes fuel ctx span rest with ts | er | m <;>
          rw [hrest] at hw <;> cases hw
        simp only [arrayElemTypes, ht]
        rw [arrayElemTypes_step, ih _ ts hrest, List.foldl_cons]
      · cases hw
      · cases hw
    · simp only [widenedElemTypes] at hw
      cases hw

/-- `dedupInsert` preserves pairwise `eq_ignore_span`-distinctness. -/
theorem pairwise_dedupInsert (acc : List Ty) (t : Ty)
    (h : acc.Pairwise fun a b => a.eqIgnoreSpan b = false) :
    (dedupInsert acc t).Pairwise fun a b => a.eqIgnoreSpan b = false := by
  unfold dedupInsert
  by_cases hc : (acc.all fun l => !(l.eqIgnoreSpan t)) = true
  · rw [if_pos hc, List.pairwise_append]
    refine ⟨h, List.pairwise_singleton _ _, ?_⟩
    intro a ha b hb
    rw [List.mem_singleton] at hb
    subst hb
    have := List.all_eq_true.mp hc a ha
    simpa using this
  · rw [if_neg hc]
    exact h

/-- The collected element types of an array literal are pairwise distinct
under `eq_ignore_span`. -/
theorem pairwise_arrayElemTypes (fuel : Nat) (ctx : Ctx) (span : Span) :
    ∀ (elems : List (Option (Bool × Expr))) (acc ts : List Ty),
      acc.Pairwise (fun a b => a.eqIgnoreSpan b = false) →
      arrayElemTypes fuel ctx span elems acc = .ok ts →
      ts.Pairwise fun a b => a.eqIgnoreSpan b = false := by
  intro elems
  induction elems with
  | nil =>
    intro acc ts hp h
    simp only [arrayElemTypes] at h
    cases h
    exact hp
  | cons hd rest ih =>
    intro acc ts hp h
    rcases hd with _ | ⟨(_ | _), e⟩
    · simp only [arrayElemTypes] at h
      rw [arrayElemTypes_step] at h
      exact ih _ ts (pairwise_dedupInsert _ _ hp) h
    · simp only [arrayElemTypes] at h
      rcases ht : typeOf fuel ctx e with t | er | m <;> rw [ht] at h <;> dsimp only at h
      · rw [arrayElemTypes_step] at h
        exact ih _ ts (pairwise_dedupInsert _ _ hp) h
      · cases h
      · cases h
    · simp only [arrayElemTypes] at h
      cases h

/-- Folding `dedupInsert` over types `eq_ignore_span`-equal to the head
keeps only the head. -/
theorem foldl_dedupInsert_head (t0 : Ty) :
    ∀ rest : List Ty, (∀ w ∈ rest, t0.eqIgnoreSpan w = true) →
      rest.foldl dedupInsert [t0] = [t0] := by
  intro rest
  induction rest with
  | nil => intro _; rfl
  | cons w ws ih =>
    intro hall
    have hw : t0.eqIgnoreSpan w = true := hall w (by simp)
    have hstep : dedupInsert [t0] w = [t0] := by
      simp [dedupInsert, hw]
    rw [List.foldl_cons, hstep]
    exact ih fun x hx => hall x (by simp [hx])


/-! ### C4: array literal typing -/

/-- C4: for every spread-free array literal whose elements all type
successfully, `type_of` returns an `Array` whose element type is the
fold of the elements' `generalize_lit`-widened types (holes contributing
`undefined` at the array's span) through `eq_ignore_span` deduplication:
no remaining type gives `Array(any)`, one gives `Array(t)` with no union
wrapping, two or more give `Array(Union(...))` (the case split is
`mkArrayElem`).  In particular, when every widened element type is
`eq_ignore_span`-equal to the first one — N identically-typed elements —
the element type is that first type alone, with no union. -/
theorem C4_array_literal (fuel : Nat) (ctx : Ctx) (span : Span)
    (elems : List (Option (Bool × Expr))) (ws : List Ty)
    (hw : widenedElemTypes fuel ctx span elems = .ok ws) :
    typeOf fuel ctx (.array span elems) =
      .ok (.array span (mkArrayElem span (ws.foldl dedupInsert [])))
    ∧ ∀ (t0 : Ty) (rest : List Ty), ws = t0 :: rest →
        (∀ w ∈ rest, t0.eqIgnoreSpan w = true) →
        typeOf fuel ctx (.array span elems) = .ok (.array span t0) := by
  have harr := arrayElemTypes_ok_of_widened fuel ctx span elems [] ws hw
  constructor
  · simp only [typeOf, harr]
  · intro t0 rest hws hall
    subst hws
    have hfold : ((t0 :: rest).foldl dedupInsert []) = [t0] := by
      rw [List.foldl_cons]
      have h0 : dedupInsert [] t0 = [t0] := by simp [dedupInsert]
      rw [h0]
      exact foldl_dedupInsert_head t0 rest hall
    simp only [typeOf, harr, hfold, mkArrayElem]

/-- C4 witness: `[1, "a", 1]` types as `Array(Union(number, string))`
with exactly two union members (scenario 4); `[1, 2]` — identically
typed elements — types as `Array(number)` with no union; and `[]` types
as `Array(any)`. -/
theorem C4_witness :
    typeOf 1 ctxE (.array 0 [some (false, .lit (.num 1 10)),
        some (false, .lit (.str "a" 20)), some (false, .lit (.num 1 30))]) =
      .ok (.array 0 (.union 0 [.simple (.keyword 10 .number), .simple (.keyword 20 .string)]))
    ∧ typeOf 1 ctxE (.array 0 [some (false, .lit (.num 1 40)),
        some (false, .lit (.num 2 50))]) =
      .ok (.array 0 (.simple (.keyword 40 .number)))
    ∧ typeOf 1 ctxE (.array 0 []) = .ok (.array 0 (anyTy 0)) := by
  refine ⟨?_, ?_, ?_⟩
  · have h := (C4_array_literal 1 ctxE 0
      [some (false, .lit (.num 1 10)), some (false, .lit (.str "a" 20)),
        some (false, .lit (.num 1 30))]
      [.simple (.keyword 10 .number), .simple (.keyword 20 .string), .simple (.keyword 30 .number)]
      (by simp [widenedElemTypes, typeOf, Ty.generalizeLit])).1
    simpa [dedupInsert, mkArrayElem, Ty.eqIgnoreSpan, TsTy.eqIgnoreSpan] using h
  · exact (C4_array_literal 1 ctxE 0
      [some (false, .lit (.num 1 40)), some (false, .lit (.num 2 50))]
      [.simple (.keyword 40 .number), .simple (.keyword 50 .number)]
      (by simp [widenedElemTypes, typeOf, Ty.generalizeLit])).2
      (.simple (.keyword 40 .number)) [.simple (.keyword 50 .number)] rfl
      (by simp [Ty.eqIgnoreSpan, TsTy.eqIgnoreSpan])
  · have h := (C4_array_literal 1 ctxE 0 [] [] (by simp [widenedElemTypes])).1
    simpa [mkArrayElem] using h

/-! ### Helper lemmas about collected return results -/

theorem firstPanic_map_ok (ts : List Ty) : firstPanic (ts.map Res.ok) = none := by
  induction ts with
  | nil => rfl
  | cons t rest ih => simpa [firstPanic] using ih

theorem collectOks_map_ok (ts : List Ty) : collectOks (ts.map Res.ok) = .ok ts := by
  induction ts with
  | nil => rfl
  | cons t rest ih => simp [collectOks, ih]

/-! ### C2: the members of constructed unions -/

/-- C2 (amended): the `Union` types built by the array-literal branch
have at least two members that are pairwise distinct under
`eq_ignore_span`, and the conditional branch unions exactly the two arm
types and only when they differ under `eq_ignore_span`; return-type
inference, however, unions ALL collected return types without any
deduplication — its unions have at least two members, but
`eq_ignore_span`-equal duplicates may remain. -/
theorem C2_union_members (fuel : Nat) (ctx : Ctx) :
    (∀ (span : Span) (elems : List (Option (Bool × Expr))) (ts : List Ty),
      arrayElemTypes fuel ctx span elems [] = .ok ts → 2 ≤ ts.length →
      typeOf fuel ctx (.array span elems) = .ok (.array span (.union span ts)) ∧
        ts.Pairwise fun a b => a.eqIgnoreSpan b = false)
    ∧ (∀ (span : Span) (test cons alt : Expr) (ct at' : Ty),
      typeOf fuel ctx cons = .ok ct → typeOf fuel ctx alt = .ok at' →
      ct.eqIgnoreSpan at' = false →
      typeOf fuel ctx (.cond span test cons alt) = .ok (.union span [ct, at']) ∧
        ([ct, at']).Pairwise fun a b => a.eqIgnoreSpan b = false)
    ∧ ∀ (body : BlockStmt) (ts : List Ty),
        returnResults fuel ctx body = ts.map Res.ok → 2 ≤ ts.length →
        inferReturnType fuel ctx body = .ok (some (.union body.span ts)) := by
  refine ⟨?_, ?_, ?_⟩
  · intro span elems ts h hlen
    refine ⟨?_, pairwise_arrayElemTypes fuel ctx span elems [] ts (by simp) h⟩
    match ts, hlen with
    | a :: b :: l, _ => simp only [typeOf, h, mkArrayElem]
  · intro span test cons alt ct at' hc ha hne
    constructor
    · simp only [typeOf, hc, ha]
      simp [hne]
    · simp [hne]
  · intro body ts h hlen
    match ts, hlen with
    | a :: b :: l, _ =>
      simp only [inferReturnType, h, firstPanic_map_ok, collectOks_map_ok]

/-- C2 counterexample: a body with two `return 1;` statements makes
return-type inference construct a two-member `Union` whose members are
`eq_ignore_span`-EQUAL — the claimed pairwise-distinctness invariant does
not hold for union construction in return-type inference. -/
theorem C2_counterexample :
    inferReturnType 1 ctxE
        ⟨0, [.ret 1 (some (.lit (.num 1 10))), .ret 2 (some (.lit (.num 1 20)))]⟩ =
      .ok (some (.union 0 [.simple (.litType 10 (.num 1 10)),
        .simple (.litType 20 (.num 1 20))])) ∧
    Ty.eqIgnoreSpan (.simple (.litType 10 (.num 1 10)))
      (.simple (.litType 20 (.num 1 20))) = true := by
  constructor
  · simp [inferReturnType, returnResults, stmtsReturnArgs, Stmt.returnArgs, typeOf,
      firstPanic, collectOks]
  · simp [Ty.eqIgnoreSpan, TsTy.eqIgnoreSpan, TsLit.eqIgnoreSpan]

/-- C2 witness: the array case on `[1, "a"]`, the conditional case on
`p ? 1 : "a"`, and the inference case on a two-return body, each applied
at its concrete input. -/
theorem C2_witness :
    (typeOf 1 ctxE (.array 0 [some (false, .lit (.num 1 10)),
        some (false, .lit (.str "a" 20))]) =
      .ok (.array 0 (.union 0 [.simple (.keyword 10 .number), .simple (.keyword 20 .string)])) ∧
      ([Ty.simple (.keyword 10 .number), Ty.simple (.keyword 20 .string)]).Pairwise
        (fun a b => a.eqIgnoreSpan b = false))
    ∧ (typeOf 1 ctxE (.cond 0 (.lit (.bool true 1)) (.lit (.num 1 2)) (.lit (.str "a" 3))) =
      .ok (.union 0 [.simple (.litType 2 (.num 1 2)), .simple (.litType 3 (.str "a" 3))]) ∧
      ([Ty.simple (.litType 2 (.num 1 2)), Ty.simple (.litType 3 (.str "a" 3))]).Pairwise
        (fun a b => a.eqIgnoreSpan b = false))
    ∧ inferReturnType 1 ctxE
        ⟨0, [.ret 1 (some (.lit (.num 1 10))), .ret 2 (some (.lit (.str "a" 20)))]⟩ =
      .ok (some (.union 0 [.simple (.litType 10 (.num 1 10)),
        .simple (.litType 20 (.str "a" 20))])) := by
  refine ⟨?_, ?_, ?_⟩
  · exact (C2_union_members 1 ctxE).1 0
      [some (false, .lit (.num 1 10)), some (false, .lit (.str "a" 20))]
      [.simple (.keyword 10 .number), .simple (.keyword 20 .string)]
      (by simp [arrayElemTypes, typeOf, Ty.generalizeLit, Ty.eqIgnoreSpan, TsTy.eqIgnoreSpan])
      (by decide)
  · exact (C2_union_members 1 ctxE).2.1 0 (.lit (.bool true 1)) (.lit (.num 1 2))
      (.lit (.str "a" 3)) (.simple (.litType 2 (.num 1 2))) (.simple (.litType 3 (.str "a" 3)))
      (by simp [typeOf]) (by simp [typeOf])
      (by simp [Ty.eqIgnoreSpan, TsTy.eqIgnoreSpan, TsLit.eqIgnoreSpan])
  · exact (C2_union_members 1 ctxE).2.2
      ⟨0, [.ret 1 (some (.lit (.num 1 10))), .ret 2 (some (.lit (.str "a" 20)))]⟩
      [.simple (.litType 10 (.num 1 10)), .simple (.litType 20 (.str "a" 20))]
      (by simp [returnResults, stmtsReturnArgs, Stmt.returnArgs, typeOf])
      (by decide)

end Spec2Proof
